import Mathlib

/-!
Shallow embedding of the payment-plan lifecycle and reputation-scoring core
of the repository: the CRS analysis page (constants, penalty and recovery
formulas, risk classification), the reminder-tier selection of the
accounting chat page, the payment-plan acceptance and counter-offer
handlers, the onboarding and renegotiation proposal flows, and the SQL
migrations (the `crs_score` column with its check constraint and default,
the unique partial index on active plans, and the transaction triggers of
the discarded `proud_plain` migration).  Theorems settle the documented
properties of these functions.
-/

namespace CWAI

/-! ## ScoreEngine: the CRS analysis page -/

/-- The `CRS_CONSTANTS` object of the CRS analysis page: base penalty,
penalty multiplier, recovery increment, recovery bonus, max score, min
score, and the three risk thresholds (HIGH, MEDIUM, LOW). -/
structure Constants where
  BASE_PENALTY : ℚ
  PENALTY_MULTIPLIER : ℚ
  RECOVERY_INCREMENT : ℚ
  RECOVERY_BONUS : ℚ
  MAX_SCORE : ℚ
  MIN_SCORE : ℚ
  RISK_HIGH : ℚ
  RISK_MEDIUM : ℚ
  RISK_LOW : ℚ

/-- The literal constant values of the source: BASE_PENALTY 10,
PENALTY_MULTIPLIER 1.5, RECOVERY_INCREMENT 5, RECOVERY_BONUS 10,
MAX_SCORE 100, MIN_SCORE 0, RISK_THRESHOLDS HIGH 60 / MEDIUM 75 / LOW 85. -/
def CRS_CONSTANTS : Constants :=
  ⟨10, 3 / 2, 5, 10, 100, 0, 60, 75, 85⟩

/-- `calculatePenalty`: BASE_PENALTY * PENALTY_MULTIPLIER ^ (consecutiveMisses - 1).
The exponent is an integer, as in `Math.pow`. -/
def calculatePenalty (c : Constants) (consecutiveMisses : ℕ) : ℚ :=
  c.BASE_PENALTY * c.PENALTY_MULTIPLIER ^ ((consecutiveMisses : ℤ) - 1)

/-- `calculateRecoveryBonus`: RECOVERY_INCREMENT plus RECOVERY_BONUS for
every six months on time (`Math.floor(monthsOnTime / 6)`). -/
def calculateRecoveryBonus (c : Constants) (monthsOnTime : ℕ) : ℚ :=
  c.RECOVERY_INCREMENT + ((monthsOnTime / 6 : ℕ) : ℚ) * c.RECOVERY_BONUS

/-- The outcome of resolving one obligation, with the history data the
score update reads: the count of consecutive misses, or the months-on-time
streak. -/
inductive Outcome where
  | missed (consecutiveMisses : ℕ)
  | onTime (monthsOnTimeStreak : ℕ)

/-- One score update of the CRS page: a miss subtracts the penalty and
floors at MIN_SCORE (`Math.max(MIN_SCORE, score - penalty)`); an on-time
payment adds the recovery bonus and caps at MAX_SCORE
(`Math.min(MAX_SCORE, score + bonus)`). -/
def applyOutcome (c : Constants) (currentScore : ℚ) : Outcome → ℚ
  | .missed m => max c.MIN_SCORE (currentScore - calculatePenalty c m)
  | .onTime s => min c.MAX_SCORE (currentScore + calculateRecoveryBonus c s)

/-- A sequence of score updates applied in order. -/
def runOutcomes (init : ℚ) (outcomes : List Outcome) : ℚ :=
  outcomes.foldl (applyOutcome CRS_CONSTANTS) init

/-- The check constraint of the `crs_score` column:
`CHECK (crs_score >= 0 AND crs_score <= 100)`. -/
def crsScoreCheck (s : ℤ) : Bool :=
  decide (0 ≤ s ∧ s ≤ 100)

/-- Inserting a liaison row: the `crs_score` column is
`integer NOT NULL DEFAULT 85` with the range check; a missing value takes
the default, and a value failing the check makes the insert fail. -/
def insertLiaisonScore (explicitScore : Option ℤ) : Option ℤ :=
  let v := explicitScore.getD 85
  if crsScoreCheck v then some v else none

/-- The three risk levels of the source. -/
inductive RiskLevel where
  | low
  | medium
  | high
deriving DecidableEq

/-- The risk classification used by the CRS page fallback
(`currentScore >= 80 ? 'low' : currentScore >= 70 ? 'medium' : 'high'`)
and by the `quick_base` migration
(`CASE WHEN crs_score >= 80 THEN 'low' WHEN crs_score >= 70 THEN 'medium'
ELSE 'high' END`). -/
def riskLevelOfScore (score : ℤ) : RiskLevel :=
  if 80 ≤ score then .low else if 70 ≤ score then .medium else .high

/-! ## ReminderPolicy: tier selection of the accounting chat page -/

/-- The four reminder tiers of `REMINDER_LEVELS`. -/
inductive ReminderTier where
  | friendly
  | approaching
  | overdue
  | urgent
deriving DecidableEq

/-- The tier selection of `generateAIReminder`:
friendly when daysUntilDue > 5 and crsScore >= 85, else approaching when
daysUntilDue > 0 and crsScore >= 75, else overdue when daysUntilDue > -7,
else urgent. -/
def reminderLevelFor (daysUntilDue : ℤ) (crsScore : ℤ) : ReminderTier :=
  if 5 < daysUntilDue ∧ 85 ≤ crsScore then .friendly
  else if 0 < daysUntilDue ∧ 75 ≤ crsScore then .approaching
  else if (-7 : ℤ) < daysUntilDue then .overdue
  else .urgent

/-! ## Readers of the stored CRS score -/

/-- The JavaScript `x || d` idiom on a possibly-missing number: a missing
value and the number 0 are both falsy and yield the default. -/
def jsOrDefault (v : Option ℤ) (d : ℤ) : ℤ :=
  match v with
  | none => d
  | some x => if x = 0 then d else x

/-- Reader of the CRS analysis page: `liaison.crs_score || 85`. -/
def crsScoreForAnalysis (stored : Option ℤ) : ℤ :=
  jsOrDefault stored 85

/-- Reader of the client list: `rel.liaisons[0]?.crs_score || 85`. -/
def crsScoreForClientList (stored : Option ℤ) : ℤ :=
  jsOrDefault stored 85

/-- Reader of the plan-suggestion generator:
`const crsScore = liaison.crs_score;` with no substitution. -/
def crsScoreForSuggestion (stored : Option ℤ) : Option ℤ :=
  stored

/-- Reader of the reminder generator in the accounting chat page:
`const crsScore = liaison.crs_score;` with no substitution. -/
def crsScoreForReminder (stored : Option ℤ) : Option ℤ :=
  stored

/-! ## The Payment_plan store and the unique partial index -/

/-- Statuses allowed by the check constraint on `Payment_plan.status`. -/
inductive PlanStatus where
  | pending
  | active
  | rejected
  | completed
  | cancelled
deriving DecidableEq

/-- One row of the `Payment_plan` table of the `black_mud` migration. -/
structure PlanRow where
  id : ℕ
  liaison_id : ℕ
  total_due : ℚ
  payment_rate : ℤ
  num_payment : ℤ
  status : PlanStatus
deriving DecidableEq

/-- The `Payment_plan` table contents. -/
abbrev PlanStore := List PlanRow

/-- A row matching the partial-index condition `WHERE status = 'active'`. -/
def isActivePlan (p : PlanRow) : Bool :=
  p.status == PlanStatus.active

/-- A row matching `liaison_id = l AND status = 'active'`: the filter of the
existing-plan query in the accept handler. -/
def isActiveFor (l : ℕ) (p : PlanRow) : Bool :=
  p.liaison_id == l && p.status == PlanStatus.active

/-- The unique partial index `idx_active_payment_plan` on
`Payment_plan (liaison_id) WHERE status = 'active'`: the liaison ids of the
active rows are pairwise distinct. -/
def indexOk (s : PlanStore) : Prop :=
  ((s.filter isActivePlan).map PlanRow.liaison_id).Nodup

instance (s : PlanStore) : Decidable (indexOk s) :=
  List.nodupDecidable _

/-- An INSERT into `Payment_plan`, checked against the unique partial
index: the statement fails if the resulting table would violate it. -/
def insertPlanRow (s : PlanStore) (r : PlanRow) : Option PlanStore :=
  let s' := s ++ [r]
  if indexOk s' then some s' else none

/-- A row with its status replaced. -/
def setPlanStatus (p : PlanRow) (st : PlanStatus) : PlanRow :=
  ⟨p.id, p.liaison_id, p.total_due, p.payment_rate, p.num_payment, st⟩

/-- The cancel update of the accept handler:
`UPDATE Payment_plan SET status = 'cancelled' WHERE id = i`. -/
def cancelPlanById (s : PlanStore) (i : ℕ) : PlanStore :=
  s.map (fun p => if p.id == i then setPlanStatus p PlanStatus.cancelled else p)

/-- The connect handler's update:
`UPDATE Payment_plan SET status = 'active'
 WHERE liaison_id = l AND status = 'pending'`, checked against the
partial index (the whole statement fails when the result would hold two
active rows for one liaison). -/
def activatePendingPlans (s : PlanStore) (l : ℕ) : Option PlanStore :=
  let s' := s.map (fun p =>
    if p.liaison_id == l && p.status == PlanStatus.pending then
      setPlanStatus p PlanStatus.active
    else p)
  if indexOk s' then some s' else none

/-- `maybeSingle()`: no row gives null, one row gives the row, more than
one row is an error. -/
def maybeSingle (xs : List PlanRow) : Option (Option PlanRow) :=
  match xs with
  | [] => some none
  | [x] => some (some x)
  | _ => none

/-- The `PaymentPlan` payload of the negotiation messages: total amount,
payment period in days, number of payments. -/
structure ProposalPlan where
  totalAmount : ℚ
  paymentPeriod : ℤ
  numberOfPayments : ℤ
deriving DecidableEq

/-- The plan row inserted by the accept handler: liaison `l`, the
proposal's amounts, status `'active'`. -/
def mkActiveRow (newId l : ℕ) (plan : ProposalPlan) : PlanRow :=
  ⟨newId, l, plan.totalAmount, plan.paymentPeriod, plan.numberOfPayments,
    PlanStatus.active⟩

/-- A chat message row, with the content either plain text or a
`payment_plan_request` payload. -/
inductive MsgContent where
  | text (s : String)
  | planRequest (currentPlan newPlan : ProposalPlan)
deriving DecidableEq

/-- One row of the `messages` table as the handlers write it. -/
structure MessageRow where
  liaison_id : ℕ
  sender_id : ℕ
  content : MsgContent
  is_read : Bool
deriving DecidableEq

/-- The accept handler of the payment-plan message component: query the
liaison's active plan with `maybeSingle` (an error when several exist),
cancel the one found, insert the new plan with status `'active'` (subject
to the unique partial index), then insert the confirmation message.  The
result is `none` when a statement fails. -/
def handleAccept (s : PlanStore) (msgs : List MessageRow) (l userId newId : ℕ)
    (newPlan : ProposalPlan) : Option (PlanStore × List MessageRow) :=
  match maybeSingle (s.filter (isActiveFor l)) with
  | none => none
  | some found =>
    let s1 := match found with
      | none => s
      | some p => cancelPlanById s p.id
    match insertPlanRow s1 (mkActiveRow newId l newPlan) with
    | none => none
    | some s2 =>
      some (s2, msgs ++ [⟨l, userId,
        MsgContent.text
          "Payment plan accepted! The new payment schedule is now active.",
        false⟩])

/-- The reject handler: only a rejection message is inserted; no plan row
changes. -/
def handleReject (msgs : List MessageRow) (l userId : ℕ) : List MessageRow :=
  msgs ++ [⟨l, userId,
    MsgContent.text
      "Payment plan rejected. The current payment schedule remains in effect.",
    false⟩]

/-- The counter-offer handler: reject a non-positive total amount before
any insert; otherwise insert the `payment_plan_request` message whose
current plan is the received proposal and whose new plan is the edited
one. -/
def handleCounterOffer (msgs : List MessageRow) (l userId : ℕ)
    (newPlan editedPlan : ProposalPlan) : Option (List MessageRow) :=
  if editedPlan.totalAmount ≤ 0 then none
  else some (msgs ++ [⟨l, userId, MsgContent.planRequest newPlan editedPlan, false⟩])

/-- The renegotiation page submit: fails without a liaison id, rejects a
non-positive total amount before any insert, otherwise inserts the
`payment_plan_request` message. -/
def renegotiationSubmit (msgs : List MessageRow) (liaisonId : Option ℕ)
    (userId : ℕ) (currentPlan newPlan : ProposalPlan) : Option (List MessageRow) :=
  match liaisonId with
  | none => none
  | some l =>
    if newPlan.totalAmount ≤ 0 then none
    else some (msgs ++ [⟨l, userId, MsgContent.planRequest currentPlan newPlan, false⟩])

/-- The onboarding submit of the add-client modal: the payment-plan insert
it performs, status `'pending'`, with no validation of the amounts in the
handler. -/
def onboardingSubmit (s : PlanStore) (l newId : ℕ) (plan : ProposalPlan) :
    Option PlanStore :=
  insertPlanRow s
    ⟨newId, l, plan.totalAmount, plan.paymentPeriod, plan.numberOfPayments,
      PlanStatus.pending⟩

/-- The onboarding submit button enablement:
`disabled = loading or totalAmount === 0`. -/
def connectButtonEnabled (loading : Bool) (totalAmount : ℚ) : Bool :=
  !loading && !(totalAmount == 0)

/-- One committed mutation of the `Payment_plan` table, as the source
performs them: the onboarding insert of a pending plan, the connect
update, a successful accept, or the cancel statement of an accept whose
later insert failed (each supabase call commits on its own). -/
inductive PlanStep : PlanStore → PlanStore → Prop where
  | submit (s : PlanStore) (l newId : ℕ) (plan : ProposalPlan)
      (s' : PlanStore) (h : onboardingSubmit s l newId plan = some s') :
      PlanStep s s'
  | connect (s : PlanStore) (l : ℕ) (s' : PlanStore)
      (h : activatePendingPlans s l = some s') : PlanStep s s'
  | accept (s : PlanStore) (msgs : List MessageRow) (l userId newId : ℕ)
      (plan : ProposalPlan) (s' : PlanStore) (msgs' : List MessageRow)
      (h : handleAccept s msgs l userId newId plan = some (s', msgs')) :
      PlanStep s s'
  | acceptCancel (s : PlanStore) (l : ℕ) (p : PlanRow)
      (h : maybeSingle (s.filter (isActiveFor l)) = some (some p)) :
      PlanStep s (cancelPlanById s p.id)

/-- Stores reachable from the empty table through the source's
mutations. -/
inductive ReachablePlanStore : PlanStore → Prop where
  | init : ReachablePlanStore []
  | step {s s' : PlanStore} (hr : ReachablePlanStore s)
      (hs : PlanStep s s') : ReachablePlanStore s'

/-- Count of active plans of one liaison. -/
def countActiveFor (s : PlanStore) (l : ℕ) : ℕ :=
  (s.filter (isActiveFor l)).length

/-! ## Lemmas about the partial index -/

lemma filter_activeFor_eq (l : ℕ) (xs : List PlanRow) :
    xs.filter (isActiveFor l) =
      (xs.filter isActivePlan).filter (fun p => p.liaison_id == l) := by
  rw [List.filter_filter]
  rfl

lemma nodup_const_len_le_one {α : Type} (xs : List α) (c : α)
    (hnd : xs.Nodup) (hall : ∀ x ∈ xs, x = c) : xs.length ≤ 1 := by
  match xs with
  | [] => simp
  | [x] => simp
  | x :: y :: t =>
    exfalso
    have hx := hall x (by simp)
    have hy := hall y (by simp)
    rw [List.nodup_cons] at hnd
    exact hnd.1 (by rw [hx, ← hy]; exact List.mem_cons_self y t)

lemma countActiveFor_le_one_of_indexOk (s : PlanStore) (l : ℕ)
    (h : indexOk s) : countActiveFor s l ≤ 1 := by
  unfold countActiveFor
  rw [filter_activeFor_eq]
  have hsub :
      List.Sublist
        (((s.filter isActivePlan).filter (fun p => p.liaison_id == l)).map
          PlanRow.liaison_id)
        ((s.filter isActivePlan).map PlanRow.liaison_id) :=
    (List.filter_sublist _).map _
  have hnd := hsub.nodup h
  have hall : ∀ x ∈ (((s.filter isActivePlan).filter
      (fun p => p.liaison_id == l)).map PlanRow.liaison_id), x = l := by
    intro x hx
    obtain ⟨p, hp, rfl⟩ := List.mem_map.mp hx
    have := (List.mem_filter.mp hp).2
    simpa using this
  have := nodup_const_len_le_one _ l hnd hall
  simpa using this

lemma insertPlanRow_indexOk {s : PlanStore} {r : PlanRow} {s' : PlanStore}
    (h : insertPlanRow s r = some s') : indexOk s' := by
  simp only [insertPlanRow] at h
  by_cases hc : indexOk (s ++ [r])
  · rw [if_pos hc] at h
    cases h
    exact hc
  · rw [if_neg hc] at h
    cases h

lemma activatePendingPlans_indexOk {s : PlanStore} {l : ℕ} {s' : PlanStore}
    (h : activatePendingPlans s l = some s') : indexOk s' := by
  simp only [activatePendingPlans] at h
  by_cases hc : indexOk (s.map (fun p =>
      if p.liaison_id == l && p.status == PlanStatus.pending then
        setPlanStatus p PlanStatus.active
      else p))
  · rw [if_pos hc] at h
    cases h
    exact hc
  · rw [if_neg hc] at h
    cases h

lemma cancel_active_map_sublist (i : ℕ) : ∀ s : PlanStore,
    List.Sublist
      (((cancelPlanById s i).filter isActivePlan).map PlanRow.liaison_id)
      ((s.filter isActivePlan).map PlanRow.liaison_id) := by
  intro s
  induction s with
  | nil => simp [cancelPlanById]
  | cons a t ih =>
    simp only [cancelPlanById, List.map_cons] at ih ⊢
    rw [List.filter_cons, List.filter_cons]
    by_cases hid : (a.id == i) = true
    · rw [if_pos hid]
      have hne : isActivePlan (setPlanStatus a PlanStatus.cancelled) = false := by
        simp [isActivePlan, setPlanStatus]
      rw [hne]
      simp only [Bool.false_eq_true, if_false]
      by_cases ha : isActivePlan a = true
      · rw [ha]
        simp only [if_true, List.map_cons]
        exact ih.cons _
      · rw [Bool.eq_false_iff.mpr ha]
        simp only [Bool.false_eq_true, if_false]
        exact ih
    · rw [if_neg hid]
      by_cases ha : isActivePlan a = true
      · rw [ha]
        simp only [if_true, List.map_cons]
        exact ih.cons₂ _
      · rw [Bool.eq_false_iff.mpr ha]
        simp only [Bool.false_eq_true, if_false]
        exact ih

lemma cancelPlanById_indexOk {s : PlanStore} (i : ℕ) (h : indexOk s) :
    indexOk (cancelPlanById s i) :=
  (cancel_active_map_sublist i s).nodup h

lemma maybeSingle_eq_some_none {xs : List PlanRow}
    (h : maybeSingle xs = some none) : xs = [] := by
  match xs with
  | [] => rfl
  | [x] => simp [maybeSingle] at h
  | x :: y :: t => simp [maybeSingle] at h

lemma maybeSingle_eq_some_some {xs : List PlanRow} {q : PlanRow}
    (h : maybeSingle xs = some (some q)) : xs = [q] := by
  match xs with
  | [] => simp [maybeSingle] at h
  | [x] =>
    simp only [maybeSingle, Option.some.injEq] at h
    rw [h]
  | x :: y :: t => simp [maybeSingle] at h

lemma handleAccept_indexOk {s : PlanStore} {msgs : List MessageRow}
    {l userId newId : ℕ} {plan : ProposalPlan} {s' : PlanStore}
    {msgs' : List MessageRow}
    (h : handleAccept s msgs l userId newId plan = some (s', msgs')) :
    indexOk s' := by
  unfold handleAccept at h
  cases hms : maybeSingle (s.filter (isActiveFor l)) with
  | none => rw [hms] at h; cases h
  | some found =>
    rw [hms] at h
    simp only at h
    cases found with
    | none =>
      cases hins : insertPlanRow s (mkActiveRow newId l plan) with
      | none => rw [hins] at h; cases h
      | some s2 =>
        rw [hins] at h
        cases h
        exact insertPlanRow_indexOk hins
    | some p =>
      cases hins : insertPlanRow (cancelPlanById s p.id)
          (mkActiveRow newId l plan) with
      | none => rw [hins] at h; cases h
      | some s2 =>
        rw [hins] at h
        cases h
        exact insertPlanRow_indexOk hins

lemma reachable_indexOk : ∀ s, ReachablePlanStore s → indexOk s := by
  intro s hr
  induction hr with
  | init => simp [indexOk]
  | step hr hs ih =>
    cases hs with
    | submit l newId plan s' h =>
      exact insertPlanRow_indexOk (h : insertPlanRow _ _ = some _)
    | connect l s' h => exact activatePendingPlans_indexOk h
    | accept msgs l userId newId plan s' msgs' h =>
      exact handleAccept_indexOk h
    | acceptCancel l p h => exact cancelPlanById_indexOk _ ih

/-- C1: at every reachable state of the `Payment_plan` store, each liaison
has at most one plan with status `'active'`; and a successful accept turns
every previously active plan of the liaison into a `'cancelled'` row of
the resulting store while the newly accepted plan is present with status
`'active'`. -/
theorem single_active_plan :
    (∀ s, ReachablePlanStore s → ∀ l, countActiveFor s l ≤ 1) ∧
    (∀ s msgs l userId newId plan s' msgs',
      handleAccept s msgs l userId newId plan = some (s', msgs') →
        (∀ p, p ∈ s → isActiveFor l p = true →
          setPlanStatus p PlanStatus.cancelled ∈ s') ∧
        mkActiveRow newId l plan ∈ s') := by
  constructor
  · intro s hr l
    exact countActiveFor_le_one_of_indexOk s l (reachable_indexOk s hr)
  · intro s msgs l userId newId plan s' msgs' h
    unfold handleAccept at h
    cases hms : maybeSingle (s.filter (isActiveFor l)) with
    | none => rw [hms] at h; cases h
    | some found =>
      rw [hms] at h
      simp only at h
      cases found with
      | none =>
        have hnil := maybeSingle_eq_some_none hms
        cases hins : insertPlanRow s (mkActiveRow newId l plan) with
        | none => rw [hins] at h; cases h
        | some s2 =>
          rw [hins] at h
          cases h
          constructor
          · intro p hp hact
            exfalso
            have : p ∈ s.filter (isActiveFor l) :=
              List.mem_filter.mpr ⟨hp, hact⟩
            rw [hnil] at this
            cases this
          · have : s' = s ++ [mkActiveRow newId l plan] := by
              simp only [insertPlanRow] at hins
              by_cases hc : indexOk (s ++ [mkActiveRow newId l plan])
              · rw [if_pos hc] at hins; cases hins; rfl
              · rw [if_neg hc] at hins; cases hins
            rw [this]
            exact List.mem_append_right _ (List.mem_singleton.mpr rfl)
      | some q =>
        have hone := maybeSingle_eq_some_some hms
        cases hins : insertPlanRow (cancelPlanById s q.id)
            (mkActiveRow newId l plan) with
        | none => rw [hins] at h; cases h
        | some s2 =>
          rw [hins] at h
          cases h
          have hs2 : s' = cancelPlanById s q.id ++ [mkActiveRow newId l plan] := by
            simp only [insertPlanRow] at hins
            by_cases hc : indexOk (cancelPlanById s q.id ++ [mkActiveRow newId l plan])
            · rw [if_pos hc] at hins; cases hins; rfl
            · rw [if_neg hc] at hins; cases hins
          constructor
          · intro p hp hact
            have hpq : p = q := by
              have : p ∈ s.filter (isActiveFor l) :=
                List.mem_filter.mpr ⟨hp, hact⟩
              rw [hone] at this
              exact List.mem_singleton.mp this
            rw [hs2]
            apply List.mem_append_left
            subst hpq
            have : setPlanStatus p PlanStatus.cancelled =
                (fun r => if r.id == p.id then
                  setPlanStatus r PlanStatus.cancelled else r) p := by
              simp
            rw [this]
            exact List.mem_map_of_mem _ hp
          · rw [hs2]
            exact List.mem_append_right _ (List.mem_singleton.mpr rfl)

/-! ## Score bounds and formulas -/

lemma calculatePenalty_nonneg (m : ℕ) :
    0 ≤ calculatePenalty CRS_CONSTANTS m := by
  unfold calculatePenalty CRS_CONSTANTS
  have h : (0 : ℚ) < (3 / 2) ^ ((m : ℤ) - 1) := zpow_pos (by norm_num) _
  nlinarith

lemma calculateRecoveryBonus_nonneg (m : ℕ) :
    0 ≤ calculateRecoveryBonus CRS_CONSTANTS m := by
  unfold calculateRecoveryBonus CRS_CONSTANTS
  positivity

lemma applyOutcome_bounds (x : ℚ) (o : Outcome) (h0 : 0 ≤ x) (h1 : x ≤ 100) :
    0 ≤ applyOutcome CRS_CONSTANTS x o ∧ applyOutcome CRS_CONSTANTS x o ≤ 100 := by
  have hmin : CRS_CONSTANTS.MIN_SCORE = 0 := rfl
  have hmax : CRS_CONSTANTS.MAX_SCORE = 100 := rfl
  cases o with
  | missed m =>
    simp only [applyOutcome, hmin, hmax]
    constructor
    · exact le_max_left 0 _
    · apply max_le (by norm_num)
      linarith [calculatePenalty_nonneg m]
  | onTime s =>
    simp only [applyOutcome, hmin, hmax]
    constructor
    · apply le_min (by norm_num)
      linarith [calculateRecoveryBonus_nonneg s]
    · exact min_le_left _ _

lemma runOutcomes_bounds : ∀ (outcomes : List Outcome) (init : ℚ),
    0 ≤ init → init ≤ 100 →
    0 ≤ runOutcomes init outcomes ∧ runOutcomes init outcomes ≤ 100 := by
  intro outcomes
  induction outcomes with
  | nil => intro init h0 h1; exact ⟨h0, h1⟩
  | cons o t ih =>
    intro init h0 h1
    have hb := applyOutcome_bounds init o h0 h1
    have := ih (applyOutcome CRS_CONSTANTS init o) hb.1 hb.2
    simpa [runOutcomes, List.foldl_cons] using this

/-- C2: every sequence of score updates starting from a score in [0, 100]
stays in [0, 100] (misses are floored at MIN_SCORE, recoveries are capped
at MAX_SCORE), and the `crs_score` column's check constraint makes a
stored score outside [0, 100] unrepresentable. -/
theorem score_bounds :
    (∀ (init : ℚ), 0 ≤ init → init ≤ 100 → ∀ outcomes : List Outcome,
      0 ≤ runOutcomes init outcomes ∧ runOutcomes init outcomes ≤ 100) ∧
    (∀ (sc : Option ℤ) (v : ℤ), insertLiaisonScore sc = some v →
      0 ≤ v ∧ v ≤ 100) := by
  constructor
  · intro init h0 h1 outcomes
    exact runOutcomes_bounds outcomes init h0 h1
  · intro sc v h
    simp only [insertLiaisonScore] at h
    by_cases hc : crsScoreCheck (sc.getD 85) = true
    · rw [if_pos hc] at h
      cases h
      exact of_decide_eq_true hc
    · rw [if_neg hc] at h
      cases h

/-- Concrete check of `score_bounds`: a miss followed by a recovery from
the default score 85, and an insert of the explicit score 40. -/
theorem score_bounds_check :
    (0 ≤ runOutcomes 85 [Outcome.missed 1, Outcome.onTime 7] ∧
      runOutcomes 85 [Outcome.missed 1, Outcome.onTime 7] ≤ 100) ∧
    (0 ≤ (40 : ℤ) ∧ (40 : ℤ) ≤ 100) :=
  ⟨score_bounds.1 85 (by norm_num) (by norm_num) _,
    score_bounds.2 (some 40) 40 (by decide)⟩

/-- C3: the penalty is BASE_PENALTY times PENALTY_MULTIPLIER to the power
consecutiveMisses minus one, the recovery bonus is RECOVERY_INCREMENT plus
RECOVERY_BONUS for each full six-payment streak, a miss subtracts the
penalty (floored at 0) and an on-time payment adds the bonus (capped at
100); two consecutive misses from score 90 give 80 and then 65. -/
theorem penalty_and_recovery_formulas :
    (∀ m : ℕ, calculatePenalty CRS_CONSTANTS m =
      10 * (3 / 2 : ℚ) ^ ((m : ℤ) - 1)) ∧
    (∀ s : ℕ, calculateRecoveryBonus CRS_CONSTANTS s =
      5 + 10 * ((s / 6 : ℕ) : ℚ)) ∧
    (∀ (x : ℚ) (m : ℕ), applyOutcome CRS_CONSTANTS x (Outcome.missed m) =
      max 0 (x - 10 * (3 / 2 : ℚ) ^ ((m : ℤ) - 1))) ∧
    (∀ (x : ℚ) (s : ℕ), applyOutcome CRS_CONSTANTS x (Outcome.onTime s) =
      min 100 (x + (5 + 10 * ((s / 6 : ℕ) : ℚ)))) ∧
    applyOutcome CRS_CONSTANTS 90 (Outcome.missed 1) = 80 ∧
    applyOutcome CRS_CONSTANTS
      (applyOutcome CRS_CONSTANTS 90 (Outcome.missed 1)) (Outcome.missed 2) = 65 := by
  refine ⟨fun m => rfl, ?_, fun x m => rfl, ?_, ?_, ?_⟩
  · intro s
    simp only [calculateRecoveryBonus, CRS_CONSTANTS]
    ring
  · intro x s
    simp only [applyOutcome, calculateRecoveryBonus, CRS_CONSTANTS]
    ring_nf
  · norm_num [applyOutcome, calculatePenalty, CRS_CONSTANTS]
  · norm_num [applyOutcome, calculatePenalty, CRS_CONSTANTS]

/-- C4 counterexample: the code classifies score 80 as 'low' although 80
lies below the claimed low threshold 85 (and inside the claimed medium
band). -/
theorem risk_low_at_80 :
    riskLevelOfScore 80 = RiskLevel.low ∧ (70 ≤ (80 : ℤ) ∧ (80 : ℤ) < 85) := by
  exact ⟨rfl, by decide⟩

/-- C4 amended: the code's risk bands are low for score at least 80,
medium for score in [70, 80), and high below 70. -/
theorem risk_classification_thresholds :
    ∀ s : ℤ, (riskLevelOfScore s = RiskLevel.low ↔ 80 ≤ s) ∧
      (riskLevelOfScore s = RiskLevel.medium ↔ 70 ≤ s ∧ s < 80) ∧
      (riskLevelOfScore s = RiskLevel.high ↔ s < 70) := by
  intro s
  unfold riskLevelOfScore
  split_ifs with h1 h2
  · exact ⟨⟨fun _ => h1, fun _ => rfl⟩,
      ⟨fun h => (nomatch h), fun h => absurd h1 (by omega)⟩,
      ⟨fun h => (nomatch h), fun h => absurd h1 (by omega)⟩⟩
  · exact ⟨⟨fun h => (nomatch h), fun h => absurd h h1⟩,
      ⟨fun _ => ⟨h2, by omega⟩, fun _ => rfl⟩,
      ⟨fun h => (nomatch h), fun h => absurd h2 (by omega)⟩⟩
  · exact ⟨⟨fun h => (nomatch h), fun h => absurd h h1⟩,
      ⟨fun h => (nomatch h), fun h => absurd h.1 h2⟩,
      ⟨fun _ => by omega, fun _ => rfl⟩⟩

/-- C5: the reminder tier is chosen by first-match precedence over
(daysUntilDue, score): friendly, then approaching, then overdue, then
urgent; with score 90 an obligation due in 10 days is friendly, due in 3
days is approaching, and overdue by 10 days is urgent. -/
theorem reminder_tier_selection :
    (∀ d s : ℤ,
      (reminderLevelFor d s = ReminderTier.friendly ↔ 5 < d ∧ 85 ≤ s) ∧
      (reminderLevelFor d s = ReminderTier.approaching ↔
        ¬(5 < d ∧ 85 ≤ s) ∧ (0 < d ∧ 75 ≤ s)) ∧
      (reminderLevelFor d s = ReminderTier.overdue ↔
        ¬(5 < d ∧ 85 ≤ s) ∧ ¬(0 < d ∧ 75 ≤ s) ∧ -7 < d) ∧
      (reminderLevelFor d s = ReminderTier.urgent ↔
        ¬(5 < d ∧ 85 ≤ s) ∧ ¬(0 < d ∧ 75 ≤ s) ∧ d ≤ -7)) ∧
    reminderLevelFor 10 90 = ReminderTier.friendly ∧
    reminderLevelFor 3 90 = ReminderTier.approaching ∧
    reminderLevelFor (-10) 90 = ReminderTier.urgent := by
  refine ⟨?_, by decide, by decide, by decide⟩
  intro d s
  unfold reminderLevelFor
  split_ifs with h1 h2 h3
  · exact ⟨⟨fun _ => h1, fun _ => rfl⟩,
      ⟨fun h => (nomatch h), fun h => absurd h1 h.1⟩,
      ⟨fun h => (nomatch h), fun h => absurd h1 h.1⟩,
      ⟨fun h => (nomatch h), fun h => absurd h1 h.1⟩⟩
  · exact ⟨⟨fun h => (nomatch h), fun h => absurd h h1⟩,
      ⟨fun _ => ⟨h1, h2⟩, fun _ => rfl⟩,
      ⟨fun h => (nomatch h), fun h => absurd h2 h.2.1⟩,
      ⟨fun h => (nomatch h), fun h => absurd h2 h.2.1⟩⟩
  · exact ⟨⟨fun h => (nomatch h), fun h => absurd h h1⟩,
      ⟨fun h => (nomatch h), fun h => absurd h.2 h2⟩,
      ⟨fun _ => ⟨h1, h2, h3⟩, fun _ => rfl⟩,
      ⟨fun h => (nomatch h), fun h => absurd h3 (by omega)⟩⟩
  · exact ⟨⟨fun h => (nomatch h), fun h => absurd h h1⟩,
      ⟨fun h => (nomatch h), fun h => absurd h.2 h2⟩,
      ⟨fun h => (nomatch h), fun h => absurd h.2.2 h3⟩,
      ⟨fun _ => ⟨h1, h2, by omega⟩, fun _ => rfl⟩⟩

/-- Concrete check of `single_active_plan`: the empty store is reachable
and holds no active plan; accepting a proposal over a store holding one
active plan for liaison 5 cancels it and installs the new active plan. -/
theorem single_active_plan_check :
    countActiveFor [] 0 ≤ 1 ∧
    ((∀ p, p ∈ ([⟨1, 5, 1200, 30, 4, PlanStatus.active⟩] : PlanStore) →
        isActiveFor 5 p = true →
        setPlanStatus p PlanStatus.cancelled ∈
          ([⟨1, 5, 1200, 30, 4, PlanStatus.cancelled⟩,
            ⟨2, 5, 600, 30, 2, PlanStatus.active⟩] : PlanStore)) ∧
      mkActiveRow 2 5 ⟨600, 30, 2⟩ ∈
        ([⟨1, 5, 1200, 30, 4, PlanStatus.cancelled⟩,
          ⟨2, 5, 600, 30, 2, PlanStatus.active⟩] : PlanStore)) :=
  ⟨single_active_plan.1 [] ReachablePlanStore.init 0,
    single_active_plan.2 [⟨1, 5, 1200, 30, 4, PlanStatus.active⟩] [] 5 9 2
      ⟨600, 30, 2⟩
      [⟨1, 5, 1200, 30, 4, PlanStatus.cancelled⟩,
        ⟨2, 5, 600, 30, 2, PlanStatus.active⟩]
      [⟨5, 9, MsgContent.text
        "Payment plan accepted! The new payment schedule is now active.",
        false⟩]
      (by decide)⟩

/-! ## Default score and its readers -/

/-- C10 counterexample: the plan-suggestion reader takes the stored score
as is; with the value missing it does not substitute 85. -/
theorem suggestion_reader_no_default :
    crsScoreForSuggestion none = none ∧
    ((none : Option ℤ) == some 85) = false := by
  decide

/-- C10 amended: the `crs_score` column defaults to 85 (checked to
[0, 100]), so a fresh relationship's stored score is 85, inside the code's
low-risk band; the analysis-page and client-list readers substitute 85 for
a missing (or zero) stored value, while the suggestion and reminder
readers take the stored value as is. -/
theorem fresh_relationship_score :
    insertLiaisonScore none = some 85 ∧
    crsScoreForAnalysis none = 85 ∧
    crsScoreForClientList none = 85 ∧
    crsScoreForAnalysis (some 0) = 85 ∧
    crsScoreForSuggestion none = none ∧
    crsScoreForReminder none = none ∧
    riskLevelOfScore 85 = RiskLevel.low := by
  decide

/-! ## Proposal validation -/

lemma insertPlanRow_eq {s : PlanStore} {r : PlanRow} {s' : PlanStore}
    (h : insertPlanRow s r = some s') : s' = s ++ [r] := by
  simp only [insertPlanRow] at h
  by_cases hc : indexOk (s ++ [r])
  · rw [if_pos hc] at h; cases h; rfl
  · rw [if_neg hc] at h; cases h

/-- C8 counterexample: a counter-offer whose edited plan has
numberOfPayments 0 (below 1) is not rejected: the payment_plan_request
Notice is created. -/
theorem counter_offer_skips_numPayments :
    handleCounterOffer [] 3 7 ⟨1200, 30, 4⟩ ⟨1200, 30, 0⟩ =
      some [⟨3, 7, MsgContent.planRequest ⟨1200, 30, 4⟩ ⟨1200, 30, 0⟩, false⟩] ∧
    (0 : ℤ) < 1 := by
  exact ⟨rfl, by decide⟩

/-- C8 amended: the counter-offer and renegotiation submissions fail,
before any Notice is inserted, exactly when the proposed total amount is
non-positive; neither validates the number of payments, and the
onboarding submit writes the pending plan row with no validation in the
handler (the UI only disables its button when the amount is exactly 0). -/
theorem proposal_validation :
    (∀ msgs l u np ep, handleCounterOffer msgs l u np ep = none ↔
      ep.totalAmount ≤ 0) ∧
    (∀ msgs l u np ep, 0 < ep.totalAmount →
      handleCounterOffer msgs l u np ep =
        some (msgs ++ [⟨l, u, MsgContent.planRequest np ep, false⟩])) ∧
    (∀ msgs l u cp np, renegotiationSubmit msgs (some l) u cp np = none ↔
      np.totalAmount ≤ 0) ∧
    (∀ msgs l u cp np, 0 < np.totalAmount →
      renegotiationSubmit msgs (some l) u cp np =
        some (msgs ++ [⟨l, u, MsgContent.planRequest cp np, false⟩])) ∧
    (∀ s l newId plan s', onboardingSubmit s l newId plan = some s' →
      (⟨newId, l, plan.totalAmount, plan.paymentPeriod,
        plan.numberOfPayments, PlanStatus.pending⟩ : PlanRow) ∈ s') ∧
    connectButtonEnabled false 0 = false ∧
    connectButtonEnabled false (-5) = true := by
  refine ⟨?_, ?_, ?_, ?_, ?_, by decide, by decide⟩
  · intro msgs l u np ep
    unfold handleCounterOffer
    by_cases h : ep.totalAmount ≤ 0
    · rw [if_pos h]
      exact ⟨fun _ => h, fun _ => rfl⟩
    · rw [if_neg h]
      exact ⟨fun hh => (nomatch hh), fun hh => absurd hh h⟩
  · intro msgs l u np ep h
    unfold handleCounterOffer
    rw [if_neg (not_le.mpr h)]
  · intro msgs l u cp np
    unfold renegotiationSubmit
    simp only
    by_cases h : np.totalAmount ≤ 0
    · rw [if_pos h]
      exact ⟨fun _ => h, fun _ => rfl⟩
    · rw [if_neg h]
      exact ⟨fun hh => (nomatch hh), fun hh => absurd hh h⟩
  · intro msgs l u cp np h
    unfold renegotiationSubmit
    simp only
    rw [if_neg (not_le.mpr h)]
  · intro s l newId plan s' h
    rw [insertPlanRow_eq h]
    exact List.mem_append_right _ (List.mem_singleton.mpr rfl)

/-- Concrete check of `proposal_validation`: a positive counter-offer goes
through, a non-positive renegotiation is rejected, a positive
renegotiation with zero payments goes through, and the onboarding submit
writes a plan row with a negative amount and zero payments. -/
theorem proposal_validation_check :
    handleCounterOffer [] 3 7 ⟨1200, 30, 4⟩ ⟨600, 30, 2⟩ =
      some [⟨3, 7, MsgContent.planRequest ⟨1200, 30, 4⟩ ⟨600, 30, 2⟩, false⟩] ∧
    renegotiationSubmit [] (some 3) 7 ⟨1200, 30, 4⟩ ⟨-5, 30, 2⟩ = none ∧
    renegotiationSubmit [] (some 3) 7 ⟨1200, 30, 4⟩ ⟨600, 30, 0⟩ =
      some [⟨3, 7, MsgContent.planRequest ⟨1200, 30, 4⟩ ⟨600, 30, 0⟩, false⟩] ∧
    (⟨1, 3, -5, 30, 0, PlanStatus.pending⟩ : PlanRow) ∈
      ([⟨1, 3, -5, 30, 0, PlanStatus.pending⟩] : PlanStore) :=
  ⟨proposal_validation.2.1 [] 3 7 ⟨1200, 30, 4⟩ ⟨600, 30, 2⟩ (by norm_num),
    (proposal_validation.2.2.1 [] 3 7 ⟨1200, 30, 4⟩ ⟨-5, 30, 2⟩).mpr
      (by norm_num),
    proposal_validation.2.2.2.1 [] 3 7 ⟨1200, 30, 4⟩ ⟨600, 30, 0⟩
      (by norm_num),
    proposal_validation.2.2.2.2.1 [] 3 1 ⟨-5, 30, 0⟩
      [⟨1, 3, -5, 30, 0, PlanStatus.pending⟩] (by decide)⟩

/-! ## Action dispatch of the payment-plan message component -/

/-- The three actions the component offers on a proposal. -/
inductive PlanAction where
  | accept
  | reject
  | counter
deriving DecidableEq

/-- The component's local proposal status. -/
inductive LocalStatus where
  | pending
  | accepted
  | rejected
deriving DecidableEq

/-- The recipient check of the component:
`currentUserId !== senderId` (a null viewer also counts as recipient). -/
def isRecipient (currentUserId : Option ℕ) (senderId : ℕ) : Bool :=
  currentUserId != some senderId

/-- What an attempted action yields: the buttons may not be rendered at
all, a handler may fail, or the handler commits new stores.  `authError`
is the failure mode the specification expects; no code path produces
it. -/
inductive ActionResult where
  | hidden
  | authError
  | failed
  | performed (plans : PlanStore) (msgs : List MessageRow)
deriving DecidableEq

/-- The action surface of the payment-plan message component: the buttons
are rendered only when the local status is pending and the viewer is the
recipient; each handler performs no sender check of its own. -/
def dispatchPlanAction (plans : PlanStore) (msgs : List MessageRow)
    (l senderId : ℕ) (currentUserId : Option ℕ) (status : LocalStatus)
    (newId : ℕ) (newPlan editedPlan : ProposalPlan) :
    PlanAction → ActionResult :=
  fun act =>
    if status == LocalStatus.pending && isRecipient currentUserId senderId then
      match currentUserId with
      | none => ActionResult.failed
      | some u =>
        match act with
        | PlanAction.accept =>
          match handleAccept plans msgs l u newId newPlan with
          | none => ActionResult.failed
          | some r => ActionResult.performed r.1 r.2
        | PlanAction.reject =>
          ActionResult.performed plans (handleReject msgs l u)
        | PlanAction.counter =>
          match handleCounterOffer msgs l u newPlan editedPlan with
          | none => ActionResult.failed
          | some m => ActionResult.performed plans m
    else ActionResult.hidden

/-- C9 counterexample: the sender viewing their own pending proposal gets
no action buttons at all — the attempt yields `hidden`, which is not an
authorization error. -/
theorem self_accept_not_auth_error :
    dispatchPlanAction [] [] 3 7 (some 7) LocalStatus.pending 1
      ⟨1200, 30, 4⟩ ⟨1200, 30, 4⟩ PlanAction.accept = ActionResult.hidden ∧
    (ActionResult.hidden == ActionResult.authError) = false := by
  exact ⟨rfl, by decide⟩

/-- C9 amended: for the sender of a proposal the accept, reject and
counter actions are not rendered (the dispatch yields `hidden`, leaving
both stores untouched), and no execution of the component ever produces
an authorization error. -/
theorem self_actions_hidden :
    (∀ plans msgs l senderId status newId np ep act,
      dispatchPlanAction plans msgs l senderId (some senderId) status newId
        np ep act = ActionResult.hidden) ∧
    (∀ plans msgs l senderId cu status newId np ep act,
      (dispatchPlanAction plans msgs l senderId cu status newId np ep act ==
        ActionResult.authError) = false) := by
  constructor
  · intro plans msgs l senderId status newId np ep act
    unfold dispatchPlanAction
    have hrec : isRecipient (some senderId) senderId = false := by
      simp [isRecipient]
    rw [hrec]
    simp
  · intro plans msgs l senderId cu status newId np ep act
    rw [beq_eq_false_iff_ne]
    intro h
    unfold dispatchPlanAction at h
    by_cases hg : (status == LocalStatus.pending &&
        isRecipient cu senderId) = true
    · rw [if_pos hg] at h
      cases cu with
      | none => simp at h
      | some u =>
        cases act with
        | accept =>
          cases hr : handleAccept plans msgs l u newId np with
          | none => simp [hr] at h
          | some r => simp [hr] at h
        | reject => simp at h
        | counter =>
          cases hr : handleCounterOffer msgs l u np ep with
          | none => simp [hr] at h
          | some m => simp [hr] at h
    · rw [if_neg hg] at h
      simp at h

/-! ## The transactions triggers of the discarded proud_plain migration -/

/-- Transaction statuses of the `transactions` table check constraint. -/
inductive TxnStatus where
  | PENDING
  | PAID
  | OVERDUE
  | RENEGO
deriving DecidableEq

/-- A row of the `transactions` table. -/
structure Txn where
  id : ℕ
  amount : ℚ
  due_date : ℤ
  status : TxnStatus
  payment_num : ℤ
  payment_plan : ℕ
deriving DecidableEq

/-- A row of the `Payment_plan` table of this migration. -/
structure PPlan where
  id : ℕ
  total_due : ℚ
  payment_rate : ℤ
  liaison_id : ℕ
  num_payment : ℤ
  next_transaction_id : Option ℕ
  completed : Bool
deriving DecidableEq

/-- The two tables the triggers act on. -/
structure TriggerDB where
  plans : List PPlan
  txns : List Txn
deriving DecidableEq

/-- The outcome of a SQL statement: the new database state, or the raised
exception's message (the statement aborted). -/
inductive DBResult where
  | ok (db : TriggerDB)
  | error (msg : String)
deriving DecidableEq

/-- A transaction row with its status replaced. -/
def setTxnStatus (t : Txn) (st : TxnStatus) : Txn :=
  ⟨t.id, t.amount, t.due_date, st, t.payment_num, t.payment_plan⟩

/-- A plan row with its next-transaction reference replaced. -/
def setPlanNext (p : PPlan) (n : Option ℕ) : PPlan :=
  ⟨p.id, p.total_due, p.payment_rate, p.liaison_id, p.num_payment, n,
    p.completed⟩

/-- A plan row with its completed flag replaced. -/
def setPPlanCompleted (p : PPlan) (b : Bool) : PPlan :=
  ⟨p.id, p.total_due, p.payment_rate, p.liaison_id, p.num_payment,
    p.next_transaction_id, b⟩

/-- `COALESCE(MAX(payment_num), 0)` over the plan's transactions. -/
def maxPaymentNum (db : TriggerDB) (pid : ℕ) : ℤ :=
  match (db.txns.filter (fun t => t.payment_plan == pid)).map
      (fun t => t.payment_num) with
  | [] => 0
  | x :: xs => xs.foldl max x

/-- A fresh transaction id (standing in for `gen_random_uuid()`). -/
def freshTxnId (db : TriggerDB) : ℕ :=
  (db.txns.map (fun t => t.id)).foldr max 0 + 1

/-- `EXISTS (SELECT 1 FROM transactions WHERE payment_plan = pid AND
status IN ('PENDING', 'OVERDUE'))`. -/
def hasOutstanding (db : TriggerDB) (pid : ℕ) : Bool :=
  db.txns.any (fun t => t.payment_plan == pid &&
    (t.status == TxnStatus.PENDING || t.status == TxnStatus.OVERDUE))

/-- `UPDATE Payment_plan SET completed = v WHERE id = pid`, with the
BEFORE trigger running `fn_validate_payment_plan_completion`: the update
raises when the flag turns from false to true while some transaction of
the plan is PENDING or OVERDUE. -/
def updatePlanCompleted (db : TriggerDB) (pid : ℕ) (v : Bool) :
    DBResult :=
  match db.plans.find? (fun p => p.id == pid) with
  | none => DBResult.ok db
  | some old =>
    if v && !old.completed && hasOutstanding db pid then
      DBResult.error "Cannot complete payment plan with active transactions"
    else
      DBResult.ok ⟨db.plans.map (fun p =>
        if p.id == pid then setPPlanCompleted p v else p), db.txns⟩

/-- `fn_generate_next_transaction`, run AFTER the status update with the
updated row NEW over the updated table state: on PAID, when the maximal
payment_num of the plan is below num_payment, insert the next transaction
(sequence max + 1, due date NEW.due_date + payment_rate days, amount
total_due / num_payment, status PENDING) and point the plan's
next_transaction_id at it; on RENEGO, mark the plan completed (which runs
the completion validation). -/
def generateNextTransaction (db : TriggerDB) (NEW : Txn) :
    DBResult :=
  if NEW.status == TxnStatus.PAID then
    match db.plans.find? (fun p => p.id == NEW.payment_plan) with
    | none => DBResult.ok db
    | some plan =>
      if maxPaymentNum db NEW.payment_plan < plan.num_payment then
        DBResult.ok
          ⟨db.plans.map (fun p => if p.id == NEW.payment_plan then
              setPlanNext p (some (freshTxnId db)) else p),
            db.txns ++ [⟨freshTxnId db,
              plan.total_due / (plan.num_payment : ℚ),
              NEW.due_date + plan.payment_rate, TxnStatus.PENDING,
              maxPaymentNum db NEW.payment_plan + 1, NEW.payment_plan⟩]⟩
      else DBResult.ok db
  else if NEW.status == TxnStatus.RENEGO then
    updatePlanCompleted db NEW.payment_plan true
  else DBResult.ok db

/-- The bare row update of a transaction status. -/
def markTxn (db : TriggerDB) (tid : ℕ) (st : TxnStatus) : TriggerDB :=
  ⟨db.plans, db.txns.map (fun t =>
    if t.id == tid then setTxnStatus t st else t)⟩

lemma markTxn_plans (db : TriggerDB) (tid : ℕ) (st : TxnStatus) :
    (markTxn db tid st).plans = db.plans := rfl

/-- `UPDATE transactions SET status = st WHERE id = tid`, with the AFTER
trigger `trg_transaction_status_change` firing only when the status
actually changed; an exception in the trigger aborts the whole
statement. -/
def updateTxnStatus (db : TriggerDB) (tid : ℕ) (st : TxnStatus) :
    DBResult :=
  match db.txns.find? (fun t => t.id == tid) with
  | none => DBResult.ok db
  | some old =>
    if old.status == st then DBResult.ok (markTxn db tid st)
    else generateNextTransaction (markTxn db tid st) (setTxnStatus old st)

/-- C6 counterexample: paying the obligation with sequence 1 of a
three-payment plan that also holds a pending obligation with sequence 2
synthesizes an obligation with sequence 3 (the plan's maximal sequence
plus one), not sequence 2 (the paid obligation's sequence plus one). -/
theorem next_obligation_uses_max_sequence :
    updateTxnStatus
      ⟨[⟨1, 300, 30, 9, 3, none, false⟩],
        [⟨1, 100, 0, TxnStatus.PENDING, 1, 1⟩,
          ⟨2, 100, 30, TxnStatus.PENDING, 2, 1⟩]⟩ 1 TxnStatus.PAID =
      DBResult.ok
        ⟨[⟨1, 300, 30, 9, 3, some 3, false⟩],
          [⟨1, 100, 0, TxnStatus.PAID, 1, 1⟩,
            ⟨2, 100, 30, TxnStatus.PENDING, 2, 1⟩,
            ⟨3, 100, 30, TxnStatus.PENDING, 3, 1⟩]⟩ ∧
    (1 : ℤ) + 1 < 3 := by
  constructor
  · norm_num [updateTxnStatus, generateNextTransaction, markTxn, setTxnStatus,
      maxPaymentNum, freshTxnId, List.find?, setPlanNext]
    decide
  · decide

/-- C6 amended: marking a transaction paid synthesizes exactly one next
obligation precisely when the plan's maximal existing sequence number is
below num_payment; the new obligation has that maximum plus one as its
sequence, due date equal to the paid obligation's due date plus the
payment interval, amount total_due / num_payment and status pending, and
becomes the plan's next-transaction reference; otherwise no obligation is
synthesized. -/
theorem next_obligation_generation :
    ∀ (db : TriggerDB) (tid : ℕ) (old : Txn) (plan : PPlan),
      db.txns.find? (fun t => t.id == tid) = some old →
      old.status ≠ TxnStatus.PAID →
      db.plans.find? (fun p => p.id == old.payment_plan) = some plan →
      ((maxPaymentNum (markTxn db tid TxnStatus.PAID) old.payment_plan <
          plan.num_payment →
        updateTxnStatus db tid TxnStatus.PAID = DBResult.ok
          ⟨db.plans.map (fun p => if p.id == old.payment_plan then
              setPlanNext p (some (freshTxnId (markTxn db tid TxnStatus.PAID)))
            else p),
            (markTxn db tid TxnStatus.PAID).txns ++
              [⟨freshTxnId (markTxn db tid TxnStatus.PAID),
                plan.total_due / (plan.num_payment : ℚ),
                old.due_date + plan.payment_rate, TxnStatus.PENDING,
                maxPaymentNum (markTxn db tid TxnStatus.PAID)
                  old.payment_plan + 1, old.payment_plan⟩]⟩) ∧
      (plan.num_payment ≤
          maxPaymentNum (markTxn db tid TxnStatus.PAID) old.payment_plan →
        updateTxnStatus db tid TxnStatus.PAID =
          DBResult.ok (markTxn db tid TxnStatus.PAID))) := by
  intro db tid old plan hfind hst hplan
  have hstf : (old.status == TxnStatus.PAID) = false := by
    simp [hst]
  constructor
  · intro hlt
    unfold updateTxnStatus
    simp only [hfind, hstf, Bool.false_eq_true, if_false]
    unfold generateNextTransaction
    simp [setTxnStatus, markTxn_plans, hplan, hlt]
  · intro hge
    unfold updateTxnStatus
    simp only [hfind, hstf, Bool.false_eq_true, if_false]
    unfold generateNextTransaction
    simp [setTxnStatus, markTxn_plans, hplan, not_lt.mpr hge]

/-- Concrete check of `next_obligation_generation`: the first payment of a
two-payment plan synthesizes the sequence-2 obligation; the only payment
of a one-payment plan synthesizes nothing. -/
theorem next_obligation_generation_check :
    updateTxnStatus
      ⟨[⟨1, 200, 15, 9, 2, none, false⟩],
        [⟨1, 100, 10, TxnStatus.PENDING, 1, 1⟩]⟩ 1 TxnStatus.PAID =
      DBResult.ok
        ⟨[⟨1, 200, 15, 9, 2, some 2, false⟩],
          [⟨1, 100, 10, TxnStatus.PAID, 1, 1⟩,
            ⟨2, 100, 25, TxnStatus.PENDING, 2, 1⟩]⟩ ∧
    updateTxnStatus
      ⟨[⟨1, 100, 15, 9, 1, none, false⟩],
        [⟨1, 100, 10, TxnStatus.PENDING, 1, 1⟩]⟩ 1 TxnStatus.PAID =
      DBResult.ok
        ⟨[⟨1, 100, 15, 9, 1, none, false⟩],
          [⟨1, 100, 10, TxnStatus.PAID, 1, 1⟩]⟩ := by
  constructor
  · have h := (next_obligation_generation
      ⟨[⟨1, 200, 15, 9, 2, none, false⟩],
        [⟨1, 100, 10, TxnStatus.PENDING, 1, 1⟩]⟩ 1
      ⟨1, 100, 10, TxnStatus.PENDING, 1, 1⟩ ⟨1, 200, 15, 9, 2, none, false⟩
      (by decide) (by decide) (by decide)).1 (by decide)
    rw [h]
    norm_num [markTxn, setTxnStatus, maxPaymentNum, freshTxnId, setPlanNext]
  · have h := (next_obligation_generation
      ⟨[⟨1, 100, 15, 9, 1, none, false⟩],
        [⟨1, 100, 10, TxnStatus.PENDING, 1, 1⟩]⟩ 1
      ⟨1, 100, 10, TxnStatus.PENDING, 1, 1⟩ ⟨1, 100, 15, 9, 1, none, false⟩
      (by decide) (by decide) (by decide)).2 (by decide)
    rw [h]
    decide

/-- C7 counterexample: completing a plan whose completed flag is already
true succeeds although a pending obligation of the plan exists, because
the validation only fires on the false-to-true transition. -/
theorem complete_skips_check_when_already_completed :
    updatePlanCompleted
      ⟨[⟨1, 100, 30, 9, 1, none, true⟩],
        [⟨1, 100, 0, TxnStatus.PENDING, 1, 1⟩]⟩ 1 true =
      DBResult.ok
        ⟨[⟨1, 100, 30, 9, 1, none, true⟩],
          [⟨1, 100, 0, TxnStatus.PENDING, 1, 1⟩]⟩ ∧
    hasOutstanding
      ⟨[⟨1, 100, 30, 9, 1, none, true⟩],
        [⟨1, 100, 0, TxnStatus.PENDING, 1, 1⟩]⟩ 1 = true := by
  exact ⟨by decide, by decide⟩

/-- C7 amended: completing a not-yet-completed plan fails with the
invariant-violation exception exactly when some obligation of the plan is
pending or overdue, and otherwise succeeds, setting the completed
flag. -/
theorem completion_guard :
    ∀ (db : TriggerDB) (pid : ℕ) (plan : PPlan),
      db.plans.find? (fun p => p.id == pid) = some plan →
      plan.completed = false →
      ((hasOutstanding db pid = true →
        updatePlanCompleted db pid true =
          DBResult.error "Cannot complete payment plan with active transactions") ∧
      (hasOutstanding db pid = false →
        updatePlanCompleted db pid true =
          DBResult.ok ⟨db.plans.map (fun p =>
            if p.id == pid then setPPlanCompleted p true else p),
            db.txns⟩)) := by
  intro db pid plan hfind hcomp
  constructor
  · intro hout
    unfold updatePlanCompleted
    rw [hfind]
    simp [hcomp, hout]
  · intro hout
    unfold updatePlanCompleted
    rw [hfind]
    simp [hcomp, hout]

/-- Concrete check of `completion_guard`: with a pending obligation the
completion raises; with all obligations paid it succeeds. -/
theorem completion_guard_check :
    updatePlanCompleted
      ⟨[⟨1, 100, 30, 9, 1, none, false⟩],
        [⟨1, 100, 0, TxnStatus.PENDING, 1, 1⟩]⟩ 1 true =
      DBResult.error "Cannot complete payment plan with active transactions" ∧
    updatePlanCompleted
      ⟨[⟨1, 100, 30, 9, 1, none, false⟩],
        [⟨1, 100, 0, TxnStatus.PAID, 1, 1⟩]⟩ 1 true =
      DBResult.ok
        ⟨[⟨1, 100, 30, 9, 1, none, true⟩],
          [⟨1, 100, 0, TxnStatus.PAID, 1, 1⟩]⟩ := by
  constructor
  · exact (completion_guard
      ⟨[⟨1, 100, 30, 9, 1, none, false⟩],
        [⟨1, 100, 0, TxnStatus.PENDING, 1, 1⟩]⟩ 1
      ⟨1, 100, 30, 9, 1, none, false⟩ (by decide) rfl).1 (by decide)
  · exact (completion_guard
      ⟨[⟨1, 100, 30, 9, 1, none, false⟩],
        [⟨1, 100, 0, TxnStatus.PAID, 1, 1⟩]⟩ 1
      ⟨1, 100, 30, 9, 1, none, false⟩ (by decide) rfl).2 (by decide)

end CWAI
